import Mathlib

/-!
Shallow embedding of the StockMarket dashboard's core computational code
(src/utils/indicators.py, src/utils/sentiment.py, src/utils/portfolio.py,
src/models/prediction.py) and proofs about it.

Conventions of the embedding:
* pandas/numpy floating-point values are modelled as rationals (`ℚ`);
* a pandas `Series`/column is a `List`; `series.iloc[-k]` is modelled by
  `iloc`, returning `none` where pandas would raise `IndexError` (callers
  wrap indicator access in `try/except` and fall back to a neutral result);
* external collaborators (yfinance ticker validation and live quotes,
  TextBlob polarity/subjectivity) are oracle function parameters;
* CSV persistence is out of scope: `save_portfolio` always succeeds on an
  in-memory portfolio, so mutators return the updated in-memory table.
-/

namespace StockMarket

/-- One bar of an OHLCV frame, restricted to the columns that
`calculate_obv` reads (`Close` and `Volume`). -/
structure Bar where
  close : ℚ
  volume : ℚ

/-- Model of `series.iloc[-k]` for a pandas series held as a list:
the element `k` positions from the end, or `none` when the series is
shorter than `k` (pandas raises `IndexError` there; every caller in
indicators.py catches it). The default value of `getD` is irrelevant:
it is only read under the bounds test. -/
def iloc (xs : List ℚ) (k : Nat) : Option ℚ :=
  if 1 ≤ k ∧ k ≤ xs.length then some (xs.getD (xs.length - k) 0) else none

/-- The `signal` labels produced by
`TechnicalIndicators.get_moving_average_signal` (indicators.py 330-384).
The `message`/`color` fields of the returned dict are presentation data
determined by the label and are omitted. -/
inductive MASignal where
  | goldenCross
  | deathCross
  | bullishTrend
  | bearishTrend
  | neutral
deriving DecidableEq

/-- Embedding of `TechnicalIndicators.get_moving_average_signal`
(indicators.py 330-384). `sma_50 is None or sma_200 is None` and the
`except` path both yield the label Neutral, here the `none` branches.
The crossover tests run only when both series have more than one point;
otherwise, and when no crossover fires, the static comparison of the
latest values decides between Bullish Trend and Bearish Trend. -/
def get_moving_average_signal (sma50 sma200 : List ℚ) : MASignal :=
  match iloc sma50 1, iloc sma200 1 with
  | some current50, some current200 =>
    if 1 < sma50.length ∧ 1 < sma200.length then
      match iloc sma50 2, iloc sma200 2 with
      | some prev50, some prev200 =>
        if prev50 < prev200 ∧ current200 < current50 then MASignal.goldenCross
        else if prev200 < prev50 ∧ current50 < current200 then MASignal.deathCross
        else if current200 < current50 then MASignal.bullishTrend
        else MASignal.bearishTrend
      | _, _ => MASignal.neutral
    else
      if current200 < current50 then MASignal.bullishTrend
      else MASignal.bearishTrend
  | _, _ => MASignal.neutral

/-- The `signal` labels produced by `TechnicalIndicators.get_macd_signal`
(indicators.py 227-280). -/
inductive MACDSignal where
  | bullishCrossover
  | bearishCrossover
  | bullish
  | bearish
  | neutral
deriving DecidableEq

/-- Embedding of `TechnicalIndicators.get_macd_signal` (indicators.py
227-280) on the three series of the `macd_data` dict. A missing latest
value (or a failing `iloc[-2]` inside the guarded block) corresponds to
the `except`/insufficient-data paths, both labelled Neutral. The sign
tests on the previous and current histogram run only when the MACD series
has more than one point; if no crossover fires the static comparison of
MACD line against signal line decides Bullish or Bearish. -/
def get_macd_signal (macd signalLine histogram : List ℚ) : MACDSignal :=
  match iloc macd 1, iloc signalLine 1, iloc histogram 1 with
  | some macdLast, some signalLast, some histLast =>
    if 1 < macd.length then
      match iloc histogram 2 with
      | some histPrev =>
        if histPrev < 0 ∧ 0 < histLast then MACDSignal.bullishCrossover
        else if 0 < histPrev ∧ histLast < 0 then MACDSignal.bearishCrossover
        else if signalLast < macdLast then MACDSignal.bullish
        else MACDSignal.bearish
      | none => MACDSignal.neutral
    else
      if signalLast < macdLast then MACDSignal.bullish
      else MACDSignal.bearish
  | _, _, _ => MACDSignal.neutral

/-- One step of the OBV loop body in `calculate_obv` (indicators.py
444-466): add the bar's volume on an up-close, subtract it on a
down-close, keep the running value on an unchanged close. -/
def obvStep (prevClose acc : ℚ) (b : Bar) : ℚ :=
  if prevClose < b.close then acc + b.volume
  else if b.close < prevClose then acc - b.volume
  else acc

/-- The tail of the OBV list built by the `for i in range(1, len(data))`
loop, given the previous bar's close and the running OBV value. -/
def obvAux (prevClose acc : ℚ) : List Bar → List ℚ
  | [] => []
  | b :: bs => obvStep prevClose acc b :: obvAux b.close (obvStep prevClose acc b) bs

/-- Embedding of `calculate_obv` (indicators.py 444-466): the list starts
at 0 and each later entry is `obvStep` of the previous close and previous
OBV value. On an empty frame the Python code builds a length-1 list for a
length-0 index, so `pd.Series` raises and the `except` returns `None`;
that is the `none` case. -/
def calculate_obv (data : List Bar) : Option (List ℚ) :=
  match data with
  | [] => none
  | b :: bs => some (0 :: obvAux b.close 0 bs)

/-- Sentiment categories assigned by `SentimentAnalyzer.analyze_text`
(sentiment.py 46-52). -/
inductive Sentiment where
  | positive
  | negative
  | neutral
deriving DecidableEq

/-- The fixed classification thresholds of `analyze_text`: polarity above
0.1 is Positive, below -0.1 is Negative, otherwise Neutral. -/
def classify (polarity : ℚ) : Sentiment :=
  if 1/10 < polarity then Sentiment.positive
  else if polarity < -(1/10) then Sentiment.negative
  else Sentiment.neutral

/-- Result record of `SentimentAnalyzer.analyze_text`. -/
structure TextScore where
  polarity : ℚ
  subjectivity : ℚ
  sentiment : Sentiment
  confidence : ℚ

/-- Embedding of `SentimentAnalyzer.analyze_text` (sentiment.py 20-66).
TextBlob is the external NLP collaborator; its polarity and subjectivity
scores are the oracles `pol` and `subj`. The Python guard
`not text or text.strip() == ""` holds exactly when every character of
the text is whitespace (including the empty text). -/
def analyze_text (pol subj : String → ℚ) (text : String) : TextScore :=
  if text.data.all Char.isWhitespace then
    { polarity := 0, subjectivity := 0, sentiment := Sentiment.neutral, confidence := 0 }
  else
    { polarity := pol text, subjectivity := subj text,
      sentiment := classify (pol text), confidence := |pol text| }

/-- A news article as consumed by `analyze_news_articles`: only the
`title` and `description` fields are read. -/
structure Article where
  title : String
  description : String

/-- The text scored for an article:
`f"{article.get('title', '')} {article.get('description', '')}"`. -/
def articleText (a : Article) : String := a.title ++ " " ++ a.description

/-- Result record of `SentimentAnalyzer.analyze_news_articles`
(sentiment.py 114-124). -/
structure AggregateSentiment where
  overall_sentiment : Sentiment
  avg_polarity : ℚ
  positive_count : Nat
  negative_count : Nat
  neutral_count : Nat
  total_articles : Nat
  positive_percent : ℚ
  negative_percent : ℚ
  neutral_percent : ℚ

/-- Embedding of `SentimentAnalyzer.analyze_news_articles` (sentiment.py
68-128): score every article, count the categories, pick the overall
category by the two strict-majority tests (defaulting to Neutral), and
derive the three percentages over the number of scored texts. In the
model `analyze_text` always returns a score, so the scored list is the
mapped list and the `if not sentiments` guard can only fire for an empty
input, which the first guard already rejected. -/
def analyze_news_articles (pol subj : String → ℚ) (articles : List Article) :
    Option AggregateSentiment :=
  if articles.isEmpty then none
  else
    let results := articles.map fun a => analyze_text pol subj (articleText a)
    let sentiments := results.map TextScore.sentiment
    let polarities := results.map TextScore.polarity
    if sentiments.isEmpty then none
    else
      let positive_count := sentiments.count Sentiment.positive
      let negative_count := sentiments.count Sentiment.negative
      let neutral_count := sentiments.count Sentiment.neutral
      some {
        overall_sentiment :=
          if negative_count < positive_count ∧ neutral_count < positive_count then
            Sentiment.positive
          else if positive_count < negative_count ∧ neutral_count < negative_count then
            Sentiment.negative
          else Sentiment.neutral
        avg_polarity := polarities.sum / (polarities.length : ℚ)
        positive_count := positive_count
        negative_count := negative_count
        neutral_count := neutral_count
        total_articles := articles.length
        positive_percent := (positive_count : ℚ) / (sentiments.length : ℚ) * 100
        negative_percent := (negative_count : ℚ) / (sentiments.length : ℚ) * 100
        neutral_percent := (neutral_count : ℚ) / (sentiments.length : ℚ) * 100 }

/-- ASCII uppercasing of `ticker.upper()`: tickers in this code base are
ASCII, on which Python's `str.upper` and `Char.toUpper` agree. -/
def strUpper (s : String) : String := ⟨s.data.map Char.toUpper⟩

/-- One row of the portfolio CSV table, with the columns written by
`PortfolioManager` (portfolio.py 42-45). -/
structure Row where
  ticker : String
  company_name : String
  quantity : ℚ
  purchase_price : ℚ
  purchase_date : String
  total_investment : ℚ

/-- Embedding of `PortfolioManager.add_stock` (portfolio.py 83-131).
`validate` is the external `StockDataFetcher.validate_ticker`
collaborator and `companyName` the `get_stock_info` name lookup (falling
back to the raw ticker when it returns nothing). A failed validation
aborts with `False` and no state change; otherwise a fresh row is
appended (`pd.concat` with `ignore_index=True`) with
`Total_Investment = quantity * purchase_price`, and the saved table is
returned. -/
def add_stock (validate : String → Bool) (companyName : String → Option String)
    (portfolio : List Row) (ticker : String) (quantity purchase_price : ℚ)
    (purchase_date : String) : Bool × List Row :=
  if validate ticker then
    (true, portfolio ++ [{
      ticker := strUpper ticker,
      company_name := (companyName ticker).getD ticker,
      quantity := quantity,
      purchase_price := purchase_price,
      purchase_date := purchase_date,
      total_investment := quantity * purchase_price }])
  else (false, portfolio)

/-- Embedding of `PortfolioManager.remove_stock` (portfolio.py 133-153).
An out-of-bounds index reports "Invalid index" and returns `False` with
the table untouched; a valid index drops exactly that row
(`drop(index).reset_index(drop=True)` on the 0..n-1 labelled table). -/
def remove_stock (portfolio : List Row) (index : Int) : Bool × List Row :=
  if index < 0 ∨ (portfolio.length : Int) ≤ index then (false, portfolio)
  else (true, portfolio.eraseIdx index.toNat)

/-- Embedding of `PortfolioManager.update_stock` (portfolio.py 155-188).
An out-of-bounds index returns `False` with the table untouched; a valid
index overwrites the optional fields and then recomputes
`Total_Investment` from the stored `Quantity` and `Purchase_Price`.
The inner `none` case is unreachable under the bounds guard. -/
def update_stock (portfolio : List Row) (index : Int)
    (quantity purchase_price : Option ℚ) : Bool × List Row :=
  if index < 0 ∨ (portfolio.length : Int) ≤ index then (false, portfolio)
  else
    match portfolio[index.toNat]? with
    | none => (false, portfolio)
    | some r =>
      let q := quantity.getD r.quantity
      let p := purchase_price.getD r.purchase_price
      (true, portfolio.set index.toNat
        { r with quantity := q, purchase_price := p, total_investment := q * p })

/-- One entry of the `portfolio_details` list built by
`get_portfolio_summary` (portfolio.py 232-243). -/
structure SummaryRow where
  ticker : String
  company_name : String
  quantity : ℚ
  purchase_price : ℚ
  current_price : ℚ
  purchase_date : String
  investment : ℚ
  current_value : ℚ
  gain_loss : ℚ
  gain_loss_percent : ℚ

/-- The per-row valuation of `get_portfolio_summary` (portfolio.py
213-243). `price` is the external `get_realtime_price` collaborator; a
missing quote is replaced by a current price of 0. The gain/loss
percentage divides by the investment only under the `investment > 0`
guard and is 0 otherwise. -/
def summaryRow (price : String → Option ℚ) (r : Row) : SummaryRow :=
  let current_price := (price r.ticker).getD 0
  let investment := r.total_investment
  let current_value := r.quantity * current_price
  let gain_loss := current_value - investment
  { ticker := r.ticker,
    company_name := r.company_name,
    quantity := r.quantity,
    purchase_price := r.purchase_price,
    current_price := current_price,
    purchase_date := r.purchase_date,
    investment := investment,
    current_value := current_value,
    gain_loss := gain_loss,
    gain_loss_percent := if 0 < investment then gain_loss / investment * 100 else 0 }

/-- Result record of `get_portfolio_summary` (portfolio.py 252-259). An
empty portfolio yields the all-zero summary; `portfolio_details` is then
the empty list (the Python code returns `None` for the details there). -/
structure Summary where
  total_stocks : Nat
  total_investment : ℚ
  current_value : ℚ
  total_gain_loss : ℚ
  total_gain_loss_percent : ℚ
  portfolio_details : List SummaryRow

/-- Embedding of `PortfolioManager.get_portfolio_summary` (portfolio.py
190-263): value every row against the live `price` oracle and accumulate
the totals; the total gain/loss percentage divides by the total
investment only under the `total_investment > 0` guard and is 0
otherwise. -/
def get_portfolio_summary (price : String → Option ℚ) (portfolio : List Row) : Summary :=
  if portfolio.isEmpty then
    { total_stocks := 0, total_investment := 0, current_value := 0,
      total_gain_loss := 0, total_gain_loss_percent := 0, portfolio_details := [] }
  else
    let details := portfolio.map (summaryRow price)
    let total_investment := (details.map SummaryRow.investment).sum
    let total_current_value := (details.map SummaryRow.current_value).sum
    let total_gain_loss := total_current_value - total_investment
    { total_stocks := portfolio.length,
      total_investment := total_investment,
      current_value := total_current_value,
      total_gain_loss := total_gain_loss,
      total_gain_loss_percent :=
        if 0 < total_investment then total_gain_loss / total_investment * 100 else 0,
      portfolio_details := details }

/-- Embedding of `sklearn.model_selection.train_test_split` with
`shuffle=False` as called by `StockPredictor.split_data` (prediction.py
92-119): with a fractional `test_size`, sklearn takes
`n_test = ceil(test_size * n)` and `n_train = n - n_test`, and without
shuffling the train arrays are the first `n_train` rows and the test
arrays are the remaining rows, identically for features and target.
(sklearn rejects an empty input; the degenerate `n = 0` case of this
model is never reached through `prepare_data`.) -/
def train_test_split {α β : Type} (X : List α) (y : List β) (test_size : ℚ) :
    List α × List α × List β × List β :=
  let n := X.length
  let nTest := (⌈test_size * (n : ℚ)⌉).toNat
  (X.take (n - nTest), X.drop (n - nTest), y.take (n - nTest), y.drop (n - nTest))

/-- Embedding of `StockPredictor.split_data` (prediction.py 92-119) at
its default `test_size=0.2`: the `random_state` argument is irrelevant
because the call passes `shuffle=False`. Returns
`(X_train, X_test, y_train, y_test)`. -/
def split_data {α β : Type} (X : List α) (y : List β) :
    List α × List α × List β × List β :=
  train_test_split X y (1/5)

/-- The data-store invariant relating the derived `Total_Investment`
column to `Quantity` and `Purchase_Price`. -/
def investmentInvariant (portfolio : List Row) : Prop :=
  ∀ r ∈ portfolio, r.total_investment = r.quantity * r.purchase_price

/-! ## Helper lemmas -/

theorem iloc_one (xs : List ℚ) (h : 1 ≤ xs.length) :
    iloc xs 1 = some (xs.getD (xs.length - 1) 0) := by
  unfold iloc
  rw [if_pos ⟨le_refl 1, h⟩]

theorem iloc_two (xs : List ℚ) (h : 2 ≤ xs.length) :
    iloc xs 2 = some (xs.getD (xs.length - 2) 0) := by
  unfold iloc
  rw [if_pos ⟨by omega, h⟩]

theorem count_sentiment_partition (l : List Sentiment) :
    l.count Sentiment.positive + l.count Sentiment.negative + l.count Sentiment.neutral
      = l.length := by
  induction l with
  | nil => simp
  | cons s t ih => cases s <;> simp [List.count_cons] <;> omega

/-! ## Theorems for the claims -/

/-- C6: every per-holding gain/loss percentage computed by
`get_portfolio_summary` is 0 when that holding's investment is 0, and the
total gain/loss percentage is 0 when the total investment is 0; the
division by the investment only happens under a positivity guard, so no
division by zero can occur. -/
theorem c6_gain_loss_percent_guard (price : String → Option ℚ) (portfolio : List Row) :
    (∀ d ∈ (get_portfolio_summary price portfolio).portfolio_details,
        d.investment = 0 → d.gain_loss_percent = 0) ∧
    ((get_portfolio_summary price portfolio).total_investment = 0 →
      (get_portfolio_summary price portfolio).total_gain_loss_percent = 0) := by
  cases portfolio with
  | nil =>
    refine ⟨fun d hd => ?_, fun _ => ?_⟩
    · simp [get_portfolio_summary] at hd
    · simp [get_portfolio_summary]
  | cons r rs =>
    constructor
    · intro d hd hinv
      simp only [get_portfolio_summary, List.isEmpty_cons, Bool.false_eq_true,
        if_false, List.mem_map] at hd
      obtain ⟨x, _, rfl⟩ := hd
      simp only [summaryRow] at hinv ⊢
      rw [hinv]
      norm_num
    · intro h
      simp only [get_portfolio_summary, List.isEmpty_cons, Bool.false_eq_true,
        if_false] at h ⊢
      rw [h]
      norm_num

/-- Witness for C6: a holding with zero investment gives a zero total
gain/loss percentage instead of a division failure. -/
theorem c6_gain_loss_percent_guard_witness :
    (get_portfolio_summary (fun _ => some 50)
      [⟨"AAPL", "Apple", 0, 0, "2024-01-01", 0⟩]).total_gain_loss_percent = 0 :=
  (c6_gain_loss_percent_guard _ _).2 (by norm_num [get_portfolio_summary, summaryRow])

/-- C8: `remove_stock` on an out-of-bounds index returns `False` and
leaves the portfolio exactly as it was; on a valid index it succeeds and
removes exactly the row at that index (the rows before and after it are
kept in order, and the length drops by one). -/
theorem c8_remove_stock_safe (portfolio : List Row) (index : Int) :
    ((index < 0 ∨ (portfolio.length : Int) ≤ index) →
      remove_stock portfolio index = (false, portfolio)) ∧
    (0 ≤ index → index < (portfolio.length : Int) →
      remove_stock portfolio index =
        (true, portfolio.take index.toNat ++ portfolio.drop (index.toNat + 1)) ∧
      (remove_stock portfolio index).2.length + 1 = portfolio.length) := by
  constructor
  · intro h
    unfold remove_stock
    rw [if_pos h]
  · intro h0 hlt
    have hni : ¬(index < 0 ∨ (portfolio.length : Int) ≤ index) := by omega
    have hidx : index.toNat < portfolio.length := by omega
    unfold remove_stock
    rw [if_neg hni]
    refine ⟨by rw [List.eraseIdx_eq_take_drop_succ], ?_⟩
    rw [List.length_eraseIdx]
    simp only [hidx, if_pos]
    omega

/-- Witness for C8: removing index 5 from a one-row portfolio fails and
keeps the row; removing index 0 succeeds and empties the portfolio. -/
theorem c8_remove_stock_safe_witness :
    remove_stock [⟨"AAPL", "Apple", 1, 2, "d", 2⟩] 5 =
      (false, [⟨"AAPL", "Apple", 1, 2, "d", 2⟩]) ∧
    remove_stock [⟨"AAPL", "Apple", 1, 2, "d", 2⟩] 0 = (true, []) :=
  ⟨(c8_remove_stock_safe _ _).1 (by norm_num),
   ((c8_remove_stock_safe _ _).2 (by norm_num) (by norm_num)).1⟩

/-- C9: the store invariant `Total_Investment = Quantity * Purchase_Price`
is preserved by the mutating operations: `add_stock` writes the product
for the appended row, and `update_stock` recomputes it from the possibly
updated quantity and price of the touched row. -/
theorem c9_total_investment_invariant (validate : String → Bool)
    (companyName : String → Option String) (portfolio : List Row) (ticker : String)
    (q p : ℚ) (d : String) (index : Int) (qu pu : Option ℚ)
    (h : investmentInvariant portfolio) :
    investmentInvariant (add_stock validate companyName portfolio ticker q p d).2 ∧
    investmentInvariant (update_stock portfolio index qu pu).2 := by
  constructor
  · unfold add_stock
    by_cases hv : validate ticker
    · rw [if_pos hv]
      intro r hr
      rcases List.mem_append.1 hr with hr | hr
      · exact h r hr
      · simp only [List.mem_singleton] at hr
        subst hr
        rfl
    · rw [if_neg hv]
      exact h
  · unfold update_stock
    by_cases hb : index < 0 ∨ (portfolio.length : Int) ≤ index
    · rw [if_pos hb]
      exact h
    · rw [if_neg hb]
      cases hg : portfolio[index.toNat]? with
      | none =>
        simp only [hg]
        exact h
      | some r =>
        simp only [hg]
        intro x hx
        rcases List.mem_or_eq_of_mem_set hx with hx | hx
        · exact h x hx
        · subst hx
          rfl

/-- Witness for C9 on an empty store: both mutations produce stores
satisfying the invariant. -/
theorem c9_total_investment_invariant_witness :
    investmentInvariant (add_stock (fun _ => true) (fun _ => none) [] "TSLA" 3 10 "d").2 ∧
    investmentInvariant (update_stock [] 0 none none).2 :=
  c9_total_investment_invariant (fun _ => true) (fun _ => none) [] "TSLA" 3 10 "d" 0
    none none (by intro r hr; exact absurd hr (List.not_mem_nil r))

/-- C10: for every non-empty list of articles (all of which score in this
model), the three aggregate percentages sum to exactly 100, because every
scored text falls in exactly one of the three categories. -/
theorem c10_percent_sum (pol subj : String → ℚ) (articles : List Article)
    (h : articles ≠ []) :
    ∃ agg, analyze_news_articles pol subj articles = some agg ∧
      agg.positive_percent + agg.negative_percent + agg.neutral_percent = 100 := by
  have hne : articles.isEmpty = false := by
    cases articles with
    | nil => exact absurd rfl h
    | cons a t => rfl
  have hns : ((articles.map fun a => analyze_text pol subj (articleText a)).map
      TextScore.sentiment).isEmpty = false := by
    cases articles with
    | nil => exact absurd rfl h
    | cons a t => rfl
  simp only [analyze_news_articles, hne, Bool.false_eq_true, if_false, hns]
  refine ⟨_, rfl, ?_⟩
  dsimp only
  set sentiments := (articles.map fun a => analyze_text pol subj (articleText a)).map
    TextScore.sentiment with hs
  have hpart := count_sentiment_partition sentiments
  have hL0 : sentiments.length ≠ 0 := by
    rw [hs]
    simp only [List.length_map, ne_eq, List.length_eq_zero]
    exact h
  have hLq : ((sentiments.length : ℕ) : ℚ) ≠ 0 := by exact_mod_cast hL0
  have hcast : ((sentiments.count Sentiment.positive : ℚ) +
      (sentiments.count Sentiment.negative : ℚ) +
      (sentiments.count Sentiment.neutral : ℚ)) = ((sentiments.length : ℕ) : ℚ) := by
    exact_mod_cast congrArg (Nat.cast : ℕ → ℚ) hpart
  field_simp
  linarith [hcast]

/-- The OBV list built by the loop has one entry per remaining bar. -/
theorem obvAux_length (prevClose acc : ℚ) (bs : List Bar) :
    (obvAux prevClose acc bs).length = bs.length := by
  induction bs generalizing prevClose acc with
  | nil => rfl
  | cons b t ih => simp [obvAux, ih]

/-- Head of the OBV loop output: one step from the carried state. -/
theorem obvAux_getD_zero (prevClose acc : ℚ) (bs : List Bar) (h : bs ≠ []) :
    (obvAux prevClose acc bs).getD 0 0
      = obvStep prevClose acc (bs.getD 0 ⟨0, 0⟩) := by
  cases bs with
  | nil => exact absurd rfl h
  | cons b t => rfl

/-- Each later OBV loop output is one step from its predecessor and the
previous bar's close. -/
theorem obvAux_getD_succ (bs : List Bar) (prevClose acc : ℚ) (i : Nat)
    (h : i + 1 < bs.length) :
    (obvAux prevClose acc bs).getD (i + 1) 0
      = obvStep (bs.getD i ⟨0, 0⟩).close ((obvAux prevClose acc bs).getD i 0)
          (bs.getD (i + 1) ⟨0, 0⟩) := by
  induction bs generalizing prevClose acc i with
  | nil => simp at h
  | cons b t ih =>
    match i with
    | 0 =>
      have ht : t ≠ [] := by
        intro he
        rw [he] at h
        simp at h

      cases t with
      | nil => exact absurd rfl ht
      | cons b2 t2 => rfl
    | i + 1 =>
      have h2 : i + 1 < t.length := by
        simpa using h
      simp only [obvAux, List.getD_cons_succ]
      exact ih b.close (obvStep prevClose acc b) i h2

/-- Ceiling arithmetic for the sklearn test-size computation at
`test_size = 1/5`. -/
theorem ceil_fifth_toNat (n : Nat) : (⌈(1/5 : ℚ) * (n : ℚ)⌉).toNat = (n + 4) / 5 := by
  have h1 : 5 * ((n + 4) / 5) ≤ n + 4 := by omega
  have h2 : n ≤ 5 * ((n + 4) / 5) := by omega
  have h1q : ((5 * ((n + 4) / 5) : ℕ) : ℚ) ≤ ((n + 4 : ℕ) : ℚ) := by exact_mod_cast h1
  have h2q : ((n : ℕ) : ℚ) ≤ ((5 * ((n + 4) / 5) : ℕ) : ℚ) := by exact_mod_cast h2
  have hc : ⌈(1/5 : ℚ) * (n : ℚ)⌉ = (((n + 4) / 5 : ℕ) : ℤ) := by
    rw [Int.ceil_eq_iff]
    push_cast at h1q h2q
    rw [Int.cast_natCast]
    constructor
    · linarith
    · linarith
  rw [hc]
  exact Int.toNat_natCast _

/-- C2: `split_data` partitions features and target without reordering:
train is the row-prefix, test the row-suffix, their concatenation is the
original data, the test set holds ceil(n/5) rows (exactly the last 20%
when n is divisible by 5) and the train set the rest, and whenever the
rows are in chronological order every test date is at least every train
date. -/
theorem c2_chronological_split {α β : Type} (date : α → ℤ) (X : List α) (y : List β) :
    (split_data X y).1 ++ (split_data X y).2.1 = X ∧
    (split_data X y).2.2.1 ++ (split_data X y).2.2.2 = y ∧
    (split_data X y).2.1.length = (X.length + 4) / 5 ∧
    (split_data X y).1.length = X.length - (X.length + 4) / 5 ∧
    ((X.map date).Sorted (· ≤ ·) →
      ∀ a ∈ (split_data X y).2.1, ∀ b ∈ (split_data X y).1, date b ≤ date a) := by
  have hle : (X.length + 4) / 5 ≤ X.length := by omega
  simp only [split_data, train_test_split, ceil_fifth_toNat]
  refine ⟨List.take_append_drop _ _, List.take_append_drop _ _, ?_, ?_, ?_⟩
  · rw [List.length_drop]
    omega
  · rw [List.length_take]
    omega
  · intro hsort a ha b hb
    have hX : X.map date =
        (X.take (X.length - (X.length + 4) / 5)).map date ++
        (X.drop (X.length - (X.length + 4) / 5)).map date := by
      rw [← List.map_append, List.take_append_drop]
    rw [hX] at hsort
    exact (List.pairwise_append.1 hsort).2.2 (date b)
      (List.mem_map_of_mem date hb) (date a) (List.mem_map_of_mem date ha)

/-- Witness for C2 on a concrete sorted 5-row data set: every test date
dominates every train date. -/
theorem c2_chronological_split_witness :
    ∀ a ∈ (split_data (α := ℤ) (β := ℤ) [3, 5, 7, 9, 11] [3, 5, 7, 9, 11]).2.1,
      ∀ b ∈ (split_data (α := ℤ) (β := ℤ) [3, 5, 7, 9, 11] [3, 5, 7, 9, 11]).1,
        id b ≤ id a :=
  (c2_chronological_split id [3, 5, 7, 9, 11] [3, 5, 7, 9, 11]).2.2.2.2 (by
    simp only [List.map_id]
    decide)

/-- C1 counterexample: starting from an empty store, adding lot
(qty=2, price=100) and then lot (qty=3, price=200) for the same ticker
leaves TWO rows for that ticker — not the single merged holding of
quantity 5 the claim requires (no row has quantity 5 at all). -/
theorem c1_no_merge_counterexample :
    ¬((add_stock (fun _ => true) (fun _ => none)
        ((add_stock (fun _ => true) (fun _ => none) [] "AAPL" 2 100 "2024-01-01").2)
        "AAPL" 3 200 "2024-01-02").2.countP (fun r => r.ticker = "AAPL") ≤ 1) ∧
    ∀ r ∈ (add_stock (fun _ => true) (fun _ => none)
        ((add_stock (fun _ => true) (fun _ => none) [] "AAPL" 2 100 "2024-01-01").2)
        "AAPL" 3 200 "2024-01-02").2, r.quantity ≠ 5 := by
  have hu : strUpper "AAPL" = "AAPL" := by decide
  have hs2 : (add_stock (fun _ => true) (fun _ => none)
      ((add_stock (fun _ => true) (fun _ => none) [] "AAPL" 2 100 "2024-01-01").2)
      "AAPL" 3 200 "2024-01-02").2 =
      [⟨"AAPL", "AAPL", 2, 100, "2024-01-01", 2 * 100⟩,
       ⟨"AAPL", "AAPL", 3, 200, "2024-01-02", 3 * 200⟩] := by
    simp [add_stock, hu]
  rw [hs2]
  constructor
  · norm_num [List.countP_cons]
  · intro r hr
    rcases List.mem_cons.1 hr with h | h
    · subst h
      norm_num
    · rw [List.mem_singleton] at h
      subst h
      norm_num

/-- C1 amended: `add_stock` does not merge lots into one holding per
ticker: on a valid ticker it appends one fresh row holding the lot's own
quantity, price and product investment, so the same ticker can occupy
several rows; in the claim's concrete scenario the two appended rows for
the ticker have quantities summing to 5 and investments summing to 800
(so the weighted average cost of 160 exists only across rows, not as a
stored merged holding). -/
theorem c1_add_stock_appends :
    (∀ (validate : String → Bool) (companyName : String → Option String)
        (portfolio : List Row) (ticker : String) (q p : ℚ) (d : String),
        validate ticker = true →
        add_stock validate companyName portfolio ticker q p d =
          (true, portfolio ++ [⟨strUpper ticker, (companyName ticker).getD ticker,
            q, p, d, q * p⟩])) ∧
    (((add_stock (fun _ => true) (fun _ => none)
        ((add_stock (fun _ => true) (fun _ => none) [] "AAPL" 2 100 "2024-01-01").2)
        "AAPL" 3 200 "2024-01-02").2.filter
          (fun r => r.ticker = "AAPL")).map Row.quantity).sum = 5 ∧
    (((add_stock (fun _ => true) (fun _ => none)
        ((add_stock (fun _ => true) (fun _ => none) [] "AAPL" 2 100 "2024-01-01").2)
        "AAPL" 3 200 "2024-01-02").2.filter
          (fun r => r.ticker = "AAPL")).map Row.total_investment).sum = 800 := by
  have hu : strUpper "AAPL" = "AAPL" := by decide
  have hs2 : (add_stock (fun _ => true) (fun _ => none)
      ((add_stock (fun _ => true) (fun _ => none) [] "AAPL" 2 100 "2024-01-01").2)
      "AAPL" 3 200 "2024-01-02").2 =
      [⟨"AAPL", "AAPL", 2, 100, "2024-01-01", 2 * 100⟩,
       ⟨"AAPL", "AAPL", 3, 200, "2024-01-02", 3 * 200⟩] := by
    simp [add_stock, hu]
  refine ⟨fun validate companyName portfolio ticker q p d hv => ?_, ?_, ?_⟩
  · simp [add_stock, hv]
  · rw [hs2]
    norm_num [List.filter]
  · rw [hs2]
    norm_num [List.filter]

/-- Witness for C1 (amended): a single add on a valid ticker appends
exactly the one new row. -/
theorem c1_add_stock_appends_witness :
    add_stock (fun _ => true) (fun _ => none) [] "MSFT" 2 100 "2024-01-01" =
      (true, [⟨strUpper "MSFT", "MSFT", 2, 100, "2024-01-01", 2 * 100⟩]) :=
  c1_add_stock_appends.1 (fun _ => true) (fun _ => none) [] "MSFT" 2 100 "2024-01-01" rfl

/-- On series with at least two points, `get_moving_average_signal` is
the four-way case split on the previous and latest values. -/
theorem get_moving_average_signal_eq (sma50 sma200 : List ℚ)
    (h50 : 2 ≤ sma50.length) (h200 : 2 ≤ sma200.length) :
    get_moving_average_signal sma50 sma200 =
      (if sma50.getD (sma50.length - 2) 0 < sma200.getD (sma200.length - 2) 0 ∧
          sma200.getD (sma200.length - 1) 0 < sma50.getD (sma50.length - 1) 0 then
        MASignal.goldenCross
      else if sma200.getD (sma200.length - 2) 0 < sma50.getD (sma50.length - 2) 0 ∧
          sma50.getD (sma50.length - 1) 0 < sma200.getD (sma200.length - 1) 0 then
        MASignal.deathCross
      else if sma200.getD (sma200.length - 1) 0 < sma50.getD (sma50.length - 1) 0 then
        MASignal.bullishTrend
      else MASignal.bearishTrend) := by
  unfold get_moving_average_signal
  rw [iloc_one sma50 (by omega), iloc_one sma200 (by omega)]
  dsimp only
  rw [if_pos ⟨by omega, by omega⟩, iloc_two sma50 h50, iloc_two sma200 h200]

/-- C3: with at least two points in each series, the signal is Golden
Cross exactly when the short average was strictly below the long one at
the previous point and is strictly above it at the latest point, and
Death Cross exactly for the opposite transition; when the short average
is strictly above the long average at every aligned point, no crossover
fires and the result is the static Bullish Trend fallback. -/
theorem c3_golden_cross_only_on_transition (sma50 sma200 : List ℚ)
    (h50 : 2 ≤ sma50.length) (h200 : 2 ≤ sma200.length) :
    (get_moving_average_signal sma50 sma200 = MASignal.goldenCross ↔
      (sma50.getD (sma50.length - 2) 0 < sma200.getD (sma200.length - 2) 0 ∧
       sma200.getD (sma200.length - 1) 0 < sma50.getD (sma50.length - 1) 0)) ∧
    (get_moving_average_signal sma50 sma200 = MASignal.deathCross ↔
      (sma200.getD (sma200.length - 2) 0 < sma50.getD (sma50.length - 2) 0 ∧
       sma50.getD (sma50.length - 1) 0 < sma200.getD (sma200.length - 1) 0)) ∧
    (sma50.length = sma200.length →
      (∀ i, i < sma50.length → sma200.getD i 0 < sma50.getD i 0) →
      get_moving_average_signal sma50 sma200 = MASignal.bullishTrend) := by
  rw [get_moving_average_signal_eq sma50 sma200 h50 h200]
  set A := sma50.getD (sma50.length - 2) 0 with hA
  set B := sma200.getD (sma200.length - 2) 0 with hB
  set C := sma50.getD (sma50.length - 1) 0 with hC
  set D := sma200.getD (sma200.length - 1) 0 with hD
  refine ⟨⟨fun hgc => ?_, fun hc => by rw [if_pos hc]⟩,
    ⟨fun hdc => ?_, fun hc => ?_⟩, fun hlen hpt => ?_⟩
  · split_ifs at hgc with h1 h2 h3
    exact h1
  · split_ifs at hdc with h1 h2 h3
    exact h2
  · have hn1 : ¬(A < B ∧ D < C) := fun hg => absurd hc.1 (not_lt.2 hg.1.le)
    rw [if_neg hn1, if_pos hc]
  · have hprev : B < A := by
      rw [hB, hA, ← hlen]
      exact hpt (sma50.length - 2) (by omega)
    have hcur : D < C := by
      rw [hD, hC, ← hlen]
      exact hpt (sma50.length - 1) (by omega)
    have hn1 : ¬(A < B ∧ D < C) := fun hg => absurd hprev (not_lt.2 hg.1.le)
    have hn2 : ¬(B < A ∧ C < D) := fun hg => absurd hcur (not_lt.2 hg.2.le)
    rw [if_neg hn1, if_neg hn2, if_pos hcur]

/-- Witness for C3 on concrete series: a below-to-above transition fires
Golden Cross, and an everywhere-above pair gives Bullish Trend. -/
theorem c3_golden_cross_only_on_transition_witness :
    get_moving_average_signal [1, 3] [2, 2] = MASignal.goldenCross ∧
    get_moving_average_signal [5, 6] [2, 2] = MASignal.bullishTrend := by
  constructor
  · exact ((c3_golden_cross_only_on_transition [1, 3] [2, 2] (by norm_num)
      (by norm_num)).1).2 (by norm_num [List.getD])
  · exact (c3_golden_cross_only_on_transition [5, 6] [2, 2] (by norm_num)
      (by norm_num)).2.2 (by norm_num) (by
        intro i hi
        have h2 : i < 2 := by simpa using hi
        interval_cases i <;> norm_num [List.getD])

/-- On series with at least two points, `get_macd_signal` is the case
split on the histogram sign flip followed by the static line
comparison. -/
theorem get_macd_signal_eq (macd signalLine histogram : List ℚ)
    (hm : 2 ≤ macd.length) (hs : 2 ≤ signalLine.length) (hh : 2 ≤ histogram.length) :
    get_macd_signal macd signalLine histogram =
      (if histogram.getD (histogram.length - 2) 0 < 0 ∧
          0 < histogram.getD (histogram.length - 1) 0 then
        MACDSignal.bullishCrossover
      else if 0 < histogram.getD (histogram.length - 2) 0 ∧
          histogram.getD (histogram.length - 1) 0 < 0 then
        MACDSignal.bearishCrossover
      else if signalLine.getD (signalLine.length - 1) 0 <
          macd.getD (macd.length - 1) 0 then
        MACDSignal.bullish
      else MACDSignal.bearish) := by
  unfold get_macd_signal
  rw [iloc_one macd (by omega), iloc_one signalLine (by omega),
    iloc_one histogram (by omega)]
  dsimp only
  rw [if_pos (by omega : 1 < macd.length), iloc_two histogram hh]

/-- C4: with at least two bars, a histogram sign flip between the last
two bars forces the matching directional crossover signal (bullish when
the histogram turned positive, bearish when it turned negative), taking
priority over the static comparison; without a sign flip the signal is
Bullish exactly when the MACD line is above the signal line and Bearish
otherwise. -/
theorem c4_macd_histogram_flip (macd signalLine histogram : List ℚ)
    (hm : 2 ≤ macd.length) (hs : 2 ≤ signalLine.length) (hh : 2 ≤ histogram.length) :
    (histogram.getD (histogram.length - 2) 0 < 0 ∧
        0 < histogram.getD (histogram.length - 1) 0 →
      get_macd_signal macd signalLine histogram = MACDSignal.bullishCrossover) ∧
    (0 < histogram.getD (histogram.length - 2) 0 ∧
        histogram.getD (histogram.length - 1) 0 < 0 →
      get_macd_signal macd signalLine histogram = MACDSignal.bearishCrossover) ∧
    (¬(histogram.getD (histogram.length - 2) 0 < 0 ∧
        0 < histogram.getD (histogram.length - 1) 0) →
      ¬(0 < histogram.getD (histogram.length - 2) 0 ∧
        histogram.getD (histogram.length - 1) 0 < 0) →
      get_macd_signal macd signalLine histogram =
        (if signalLine.getD (signalLine.length - 1) 0 <
            macd.getD (macd.length - 1) 0 then
          MACDSignal.bullish
        else MACDSignal.bearish)) := by
  rw [get_macd_signal_eq macd signalLine histogram hm hs hh]
  refine ⟨fun h1 => ?_, fun h2 => ?_, fun hn1 hn2 => ?_⟩
  · rw [if_pos h1]
  · rw [if_neg, if_pos h2]
    exact fun hc => absurd h2.1 (not_lt.2 hc.1.le)
  · rw [if_neg hn1, if_neg hn2]

/-- Witness for C4 on a concrete histogram flip and a no-flip case. -/
theorem c4_macd_histogram_flip_witness :
    get_macd_signal [1, 2] [0, 1] [-1, 1] = MACDSignal.bullishCrossover ∧
    get_macd_signal [1, 2] [0, 1] [1, 2] = MACDSignal.bullish := by
  constructor
  · exact (c4_macd_histogram_flip [1, 2] [0, 1] [-1, 1] (by norm_num) (by norm_num)
      (by norm_num)).1 (by norm_num [List.getD])
  · have h := (c4_macd_histogram_flip [1, 2] [0, 1] [1, 2] (by norm_num) (by norm_num)
      (by norm_num)).2.2 (by norm_num [List.getD]) (by norm_num [List.getD])
    rw [h, if_pos (by norm_num [List.getD])]

/-- C5: for every non-empty OHLCV series, `calculate_obv` returns the
sequential scan with OBV[0] = 0 and, for i ≥ 1, OBV[i] = OBV[i-1] plus
the bar's volume on a strictly higher close, minus it on a strictly lower
close, and unchanged on an equal close. -/
theorem c5_obv_recurrence (data : List Bar) (h : data ≠ []) :
    ∃ obv, calculate_obv data = some obv ∧
      obv.length = data.length ∧
      obv.getD 0 0 = 0 ∧
      ∀ i, i + 1 < data.length →
        obv.getD (i + 1) 0 =
          (if (data.getD i ⟨0, 0⟩).close < (data.getD (i + 1) ⟨0, 0⟩).close then
            obv.getD i 0 + (data.getD (i + 1) ⟨0, 0⟩).volume
          else if (data.getD (i + 1) ⟨0, 0⟩).close < (data.getD i ⟨0, 0⟩).close then
            obv.getD i 0 - (data.getD (i + 1) ⟨0, 0⟩).volume
          else obv.getD i 0) := by
  cases data with
  | nil => exact absurd rfl h
  | cons b bs =>
    refine ⟨0 :: obvAux b.close 0 bs, rfl, by simp [calculate_obv, obvAux_length], rfl, ?_⟩
    intro i hi
    match i with
    | 0 =>
      have hbs : bs ≠ [] := by
        intro he
        rw [he] at hi
        simp at hi
      show (obvAux b.close 0 bs).getD 0 0 = _
      rw [obvAux_getD_zero _ _ _ hbs]
      rfl
    | i + 1 =>
      have h2 : i + 1 < bs.length := by
        simpa using hi
      show (obvAux b.close 0 bs).getD (i + 1) 0 = _
      rw [obvAux_getD_succ _ _ _ _ h2]
      rfl

/-- Witness for C5 on a four-bar series with an up, a down and a flat
close. -/
theorem c5_obv_recurrence_witness :
    ∃ obv, calculate_obv [⟨10, 5⟩, ⟨12, 3⟩, ⟨11, 4⟩, ⟨11, 7⟩] = some obv ∧
      obv.length = 4 ∧
      obv.getD 0 0 = 0 ∧
      ∀ i, i + 1 < 4 →
        obv.getD (i + 1) 0 =
          (if (([⟨10, 5⟩, ⟨12, 3⟩, ⟨11, 4⟩, ⟨11, 7⟩] : List Bar).getD i ⟨0, 0⟩).close <
              (([⟨10, 5⟩, ⟨12, 3⟩, ⟨11, 4⟩, ⟨11, 7⟩] : List Bar).getD (i + 1) ⟨0, 0⟩).close then
            obv.getD i 0 + (([⟨10, 5⟩, ⟨12, 3⟩, ⟨11, 4⟩, ⟨11, 7⟩] : List Bar).getD (i + 1) ⟨0, 0⟩).volume
          else if (([⟨10, 5⟩, ⟨12, 3⟩, ⟨11, 4⟩, ⟨11, 7⟩] : List Bar).getD (i + 1) ⟨0, 0⟩).close <
              (([⟨10, 5⟩, ⟨12, 3⟩, ⟨11, 4⟩, ⟨11, 7⟩] : List Bar).getD i ⟨0, 0⟩).close then
            obv.getD i 0 - (([⟨10, 5⟩, ⟨12, 3⟩, ⟨11, 4⟩, ⟨11, 7⟩] : List Bar).getD (i + 1) ⟨0, 0⟩).volume
          else obv.getD i 0) :=
  c5_obv_recurrence [⟨10, 5⟩, ⟨12, 3⟩, ⟨11, 4⟩, ⟨11, 7⟩] (by simp)

/-- C7: the overall sentiment of the aggregate is the category with the
strict majority count — Positive or Negative only when that count
strictly exceeds both other counts — and Neutral whenever no category
strictly dominates; moreover two copies of a positively scored text
aggregate to overall Positive with positive_percent = 100. -/
theorem c7_overall_majority (pol subj : String → ℚ) :
    (∀ articles : List Article, articles ≠ [] →
      ∃ agg, analyze_news_articles pol subj articles = some agg ∧
        (agg.negative_count < agg.positive_count ∧
            agg.neutral_count < agg.positive_count →
          agg.overall_sentiment = Sentiment.positive) ∧
        (agg.positive_count < agg.negative_count ∧
            agg.neutral_count < agg.negative_count →
          agg.overall_sentiment = Sentiment.negative) ∧
        (¬(agg.negative_count < agg.positive_count ∧
            agg.neutral_count < agg.positive_count) →
          ¬(agg.positive_count < agg.negative_count ∧
            agg.neutral_count < agg.negative_count) →
          agg.overall_sentiment = Sentiment.neutral)) ∧
    (∀ a : Article,
      (analyze_text pol subj (articleText a)).sentiment = Sentiment.positive →
      ∃ agg, analyze_news_articles pol subj [a, a] = some agg ∧
        agg.overall_sentiment = Sentiment.positive ∧
        agg.positive_percent = 100) := by
  constructor
  · intro articles h
    have hne : articles.isEmpty = false := by
      cases articles with
      | nil => exact absurd rfl h
      | cons a t => rfl
    have hns : ((articles.map fun a => analyze_text pol subj (articleText a)).map
        TextScore.sentiment).isEmpty = false := by
      cases articles with
      | nil => exact absurd rfl h
      | cons a t => rfl
    simp only [analyze_news_articles, hne, Bool.false_eq_true, if_false, hns]
    refine ⟨_, rfl, ?_, ?_, ?_⟩ <;> dsimp only
    · intro hcond
      rw [if_pos hcond]
    · intro hcond
      have hn1 : ¬(((articles.map fun a => analyze_text pol subj (articleText a)).map
            TextScore.sentiment).count Sentiment.negative <
          ((articles.map fun a => analyze_text pol subj (articleText a)).map
            TextScore.sentiment).count Sentiment.positive ∧
          ((articles.map fun a => analyze_text pol subj (articleText a)).map
            TextScore.sentiment).count Sentiment.neutral <
          ((articles.map fun a => analyze_text pol subj (articleText a)).map
            TextScore.sentiment).count Sentiment.positive) :=
        fun hc => absurd hcond.1 (not_lt.2 hc.1.le)
      rw [if_neg hn1, if_pos hcond]
    · intro hn1 hn2
      rw [if_neg hn1, if_neg hn2]
  · intro a ha
    simp only [analyze_news_articles, List.map_cons, List.map_nil, List.isEmpty_cons,
      Bool.false_eq_true, if_false]
    have hc1 : [Sentiment.positive, Sentiment.positive].count Sentiment.positive = 2 := by
      decide
    have hc2 : [Sentiment.positive, Sentiment.positive].count Sentiment.negative = 0 := by
      decide
    have hc3 : [Sentiment.positive, Sentiment.positive].count Sentiment.neutral = 0 := by
      decide
    refine ⟨_, rfl, ?_, ?_⟩
    · dsimp only
      simp only [ha, hc1, hc2, hc3]
      norm_num
    · dsimp only
      simp only [ha, hc1, hc2, hc3, List.length_cons, List.length_nil]
      norm_num

/-- Witness for C7: two copies of a positively scored headline aggregate
to overall Positive with a 100% positive share. -/
theorem c7_overall_majority_witness :
    ∃ agg, analyze_news_articles (fun _ => 1) (fun _ => 0)
        [⟨"great earnings beat", ""⟩, ⟨"great earnings beat", ""⟩] = some agg ∧
      agg.overall_sentiment = Sentiment.positive ∧
      agg.positive_percent = 100 :=
  (c7_overall_majority (fun _ => 1) (fun _ => 0)).2 ⟨"great earnings beat", ""⟩ (by
    norm_num [analyze_text, articleText, classify]
    decide)

/-- Witness for C10 at a single positive article. -/
theorem c10_percent_sum_witness :
    ∃ agg, analyze_news_articles (fun _ => 1) (fun _ => 0)
        [{ title := "t", description := "d" }] = some agg ∧
      agg.positive_percent + agg.negative_percent + agg.neutral_percent = 100 :=
  c10_percent_sum _ _ _ (by simp)

end StockMarket
